import Mathlib

/-!
Verification development for the HTTP date header core (`src/util/http_date.rs`).

The repository wraps an external `httpdate`-style timestamp core: the wrapper
delegates parsing (`FromStr`), rendering (`Display`), clock conversion
(`From<SystemTime>`) and comparison to that core.  The core itself is not part
of the repository sources, so every definition of the parse / render / calendar
subsystem below is modelled from the specification (see the doc comments
starting with `Modelled from the spec:`).  The thin wrapper code that is in the
repository (`from_val`, `try_from_values`, the `Hash` impl feeding
`SystemTime::from(self.0)` to the hasher, the opaque `Error` type) is embedded
directly from the source.
-/

/-- Modelled from the spec: proleptic-Gregorian leap-year test used by the
calendar validation ("day 1–31 and consistent with month/leap-year"). -/
def isLeap (y : Int) : Bool :=
  decide ((y % 4 = 0 ∧ y % 100 ≠ 0) ∨ y % 400 = 0)

/-- Modelled from the spec: leap-year test on natural-number years. -/
def isLeapN (y : Nat) : Bool :=
  decide ((y % 4 = 0 ∧ y % 100 ≠ 0) ∨ y % 400 = 0)

theorem isLeap_natCast (n : Nat) : isLeap (n : Int) = isLeapN n := by
  simp only [isLeap, isLeapN, decide_eq_decide]
  omega

/-- Modelled from the spec: number of days of month `m` (1–12), given whether
the year is leap.  Out-of-range months get `0` days, so no day validates. -/
def daysInMonthC (m : Nat) (leap : Bool) : Nat :=
  match m with
  | 1 => 31
  | 2 => if leap then 29 else 28
  | 3 => 31
  | 4 => 30
  | 5 => 31
  | 6 => 30
  | 7 => 31
  | 8 => 31
  | 9 => 30
  | 10 => 31
  | 11 => 30
  | 12 => 31
  | _ => 0

/-- Modelled from the spec: days in month `m` of year `y`. -/
def daysInMonthZ (m : Nat) (y : Int) : Nat :=
  daysInMonthC m (isLeap y)

/-- Modelled from the spec: number of days in year `y`. -/
def daysInYearN (y : Nat) : Nat :=
  if isLeapN y then 366 else 365

/-- Modelled from the spec: number of days in year `y` (integer years). -/
def daysInYearZ (y : Int) : Nat :=
  if isLeap y then 366 else 365

/-- Modelled from the spec: cumulative days before month `m` (1–12) within a
year, given whether the year is leap. -/
def monthStartC (m : Nat) (leap : Bool) : Nat :=
  let f : Nat := if leap then 1 else 0
  match m with
  | 1 => 0
  | 2 => 31
  | 3 => 59 + f
  | 4 => 90 + f
  | 5 => 120 + f
  | 6 => 151 + f
  | 7 => 181 + f
  | 8 => 212 + f
  | 9 => 243 + f
  | 10 => 273 + f
  | 11 => 304 + f
  | 12 => 334 + f
  | _ => 0

/-- Modelled from the spec: days from 0000-01-01 to the start of year `y`
(natural-number years, proleptic Gregorian). -/
def yearStartN (y : Nat) : Nat :=
  365 * y + (y + 3) / 4 - (y + 99) / 100 + (y + 399) / 400

/-- Modelled from the spec: days from 0000-01-01 to the start of year `y`
(integer years; integer `/` is Euclidean division, which is floor division
for a positive divisor). -/
def yearStartZ (y : Int) : Int :=
  365 * y + (y + 3) / 4 - (y + 99) / 100 + (y + 399) / 400

set_option maxHeartbeats 1000000 in
theorem yearStartN_step (y : Nat) :
    yearStartN (y + 1) = yearStartN y + daysInYearN y := by
  simp only [yearStartN, daysInYearN, isLeapN, decide_eq_true_eq]
  by_cases h : (y % 4 = 0 ∧ y % 100 ≠ 0) ∨ y % 400 = 0
  · rw [if_pos h]
    omega
  · rw [if_neg h]
    omega

/-- Modelled from the spec: the timestamp value.  The spec describes it as
"conceptually `(year, month, day, hour, minute, second)` all expressed in UTC";
the derived weekday is recomputed from the date, never stored.  Equality,
ordering and hashing are anchored to the seconds-since-epoch value (§3). -/
structure HttpDate where
  year : Int
  mon : Nat
  day : Nat
  hour : Nat
  minute : Nat
  sec : Nat
  deriving DecidableEq, Repr

/-- Modelled from the spec: the validity invariant of a timestamp — field
ranges from §4.1 ("month 1–12; day 1–31 and consistent with month/leap-year;
hour 0–23; minute/second 0–59") together with the 4-digit-year domain of the
canonical grammar (`<4-digit year>`, fixed 29-character output). -/
def HttpDate.valid (x : HttpDate) : Prop :=
  0 ≤ x.year ∧ x.year ≤ 9999 ∧ 1 ≤ x.mon ∧ x.mon ≤ 12 ∧ 1 ≤ x.day ∧
    x.day ≤ daysInMonthZ x.mon x.year ∧ x.hour ≤ 23 ∧ x.minute ≤ 59 ∧ x.sec ≤ 59

instance HttpDate.validDecidable (x : HttpDate) : Decidable x.valid := by
  unfold HttpDate.valid
  infer_instance

/-- Modelled from the spec: days from 0000-01-01 to the date of `x`. -/
def HttpDate.daysSinceYear0 (x : HttpDate) : Int :=
  yearStartZ x.year + (monthStartC x.mon (isLeap x.year) : Int) + ((x.day : Int) - 1)

/-- Modelled from the spec: seconds since the Unix epoch of `x` — the
absolute-time value that `SystemTime::from(self.0)` produces and that equality,
ordering and the `Hash` impl in the source are anchored to. -/
def HttpDate.toSystemTime (x : HttpDate) : Int :=
  (x.daysSinceYear0 - 719528) * 86400 +
    3600 * (x.hour : Int) + 60 * (x.minute : Int) + (x.sec : Int)

/-- Modelled from the spec: the derived weekday of the date of `x`
(0 = Sunday, …, 6 = Saturday), always recomputed from the date. -/
def HttpDate.weekdayOf (x : HttpDate) : Nat :=
  ((x.daysSinceYear0 + 6) % 7).toNat

/-- Equality of the source type: the derived `PartialEq` delegates to the
wrapped core, which compares the `SystemTime` values (absolute time). -/
def HttpDate.eq (x y : HttpDate) : Bool :=
  x.toSystemTime == y.toSystemTime

/-- Ordering of the source type: the derived `Ord` delegates to the wrapped
core, which orders by the `SystemTime` values (absolute time). -/
def HttpDate.cmp (x y : HttpDate) : Ordering :=
  if x.toSystemTime < y.toSystemTime then Ordering.lt
  else if x.toSystemTime = y.toSystemTime then Ordering.eq
  else Ordering.gt

/-- The `Hash` impl of the source (lines 38–48) feeds exactly
`SystemTime::from(self.0)` to the hasher, so the hash is a function of this
value and of nothing else.  We model the hash as that absolute-time value. -/
def HttpDate.hash (x : HttpDate) : Int :=
  x.toSystemTime

/-- Modelled from the spec: the decimal digit character for `r % 10`. -/
def digitC (r : Nat) : Char :=
  match r with
  | 0 => '0'
  | 1 => '1'
  | 2 => '2'
  | 3 => '3'
  | 4 => '4'
  | 5 => '5'
  | 6 => '6'
  | 7 => '7'
  | 8 => '8'
  | 9 => '9'
  | _ => '0'

/-- Modelled from the spec: a 2-digit zero-padded decimal field. -/
def pad2 (n : Nat) : List Char :=
  [digitC (n / 10 % 10), digitC (n % 10)]

/-- Modelled from the spec: a 4-digit zero-padded decimal field. -/
def pad4 (n : Nat) : List Char :=
  [digitC (n / 1000 % 10), digitC (n / 100 % 10), digitC (n / 10 % 10), digitC (n % 10)]

/-- Modelled from the spec: the three-letter month name of month `m` (1–12). -/
def monName (m : Nat) : List Char :=
  match m with
  | 1 => ['J', 'a', 'n']
  | 2 => ['F', 'e', 'b']
  | 3 => ['M', 'a', 'r']
  | 4 => ['A', 'p', 'r']
  | 5 => ['M', 'a', 'y']
  | 6 => ['J', 'u', 'n']
  | 7 => ['J', 'u', 'l']
  | 8 => ['A', 'u', 'g']
  | 9 => ['S', 'e', 'p']
  | 10 => ['O', 'c', 't']
  | 11 => ['N', 'o', 'v']
  | 12 => ['D', 'e', 'c']
  | _ => ['J', 'a', 'n']

/-- Modelled from the spec: the three-letter weekday name (0 = Sunday). -/
def wdayName (w : Nat) : List Char :=
  match w with
  | 0 => ['S', 'u', 'n']
  | 1 => ['M', 'o', 'n']
  | 2 => ['T', 'u', 'e']
  | 3 => ['W', 'e', 'd']
  | 4 => ['T', 'h', 'u']
  | 5 => ['F', 'r', 'i']
  | 6 => ['S', 'a', 't']
  | _ => ['S', 'u', 'n']

/-- Modelled from the spec: the characters of the canonical IMF-fixdate
rendering `"Www, dd Mmm yyyy hh:mm:ss GMT"`, with the weekday recomputed from
the date. -/
def HttpDate.toCanonicalChars (x : HttpDate) : List Char :=
  wdayName x.weekdayOf ++ ',' :: ' ' ::
    (pad2 x.day ++ ' ' ::
      (monName x.mon ++ ' ' ::
        (pad4 x.year.toNat ++ ' ' ::
          (pad2 x.hour ++ ':' ::
            (pad2 x.minute ++ ':' ::
              (pad2 x.sec ++ [' ', 'G', 'M', 'T']))))))

/-- Modelled from the spec: `to_canonical_string` — the `Display` impl always
emits the preferred IMF-fixdate format, recomputing every field from the
stored value. -/
def HttpDate.to_canonical_string (x : HttpDate) : String :=
  String.mk x.toCanonicalChars

/-- Modelled from the spec: read one decimal digit character. -/
def readDigit (c : Char) : Option Nat :=
  if 48 ≤ c.toNat ∧ c.toNat ≤ 57 then some (c.toNat - 48) else none

/-- Modelled from the spec: sequencing of fallible tokenizing steps. -/
def andThenO {α β : Type} (a : Option α) (f : α → Option β) : Option β :=
  match a with
  | none => none
  | some x => f x

/-- Modelled from the spec: ordered fallback between grammar attempts. -/
def orO {α : Type} (a b : Option α) : Option α :=
  match a with
  | some x => some x
  | none => b

/-- Modelled from the spec: read exactly two decimal digits. -/
def read2 : List Char → Option (Nat × List Char)
  | a :: b :: t =>
    match readDigit a, readDigit b with
    | some hi, some lo => some (10 * hi + lo, t)
    | _, _ => none
  | _ => none

/-- Modelled from the spec: read exactly four decimal digits. -/
def read4 : List Char → Option (Nat × List Char)
  | a :: b :: c :: d :: t =>
    match readDigit a, readDigit b, readDigit c, readDigit d with
    | some x1, some x2, some x3, some x4 => some (1000 * x1 + 100 * x2 + 10 * x3 + x4, t)
    | _, _, _, _ => none
  | _ => none

/-- Modelled from the spec: consume an exact literal token. -/
def dropTok : List Char → List Char → Option (List Char)
  | [], s => some s
  | c :: cs, a :: t => if a = c then dropTok cs t else none
  | _ :: _, [] => none

/-- Modelled from the spec: consume one character. -/
def expectChar (c : Char) : List Char → Option (List Char)
  | a :: t => if a = c then some t else none
  | [] => none

/-- Modelled from the spec: is `a b c` one of the seven weekday names? -/
def wday3Ok (a b c : Char) : Bool :=
  (a = 'S' ∧ b = 'u' ∧ c = 'n') ∨ (a = 'M' ∧ b = 'o' ∧ c = 'n') ∨
    (a = 'T' ∧ b = 'u' ∧ c = 'e') ∨ (a = 'W' ∧ b = 'e' ∧ c = 'd') ∨
    (a = 'T' ∧ b = 'h' ∧ c = 'u') ∨ (a = 'F' ∧ b = 'r' ∧ c = 'i') ∨
    (a = 'S' ∧ b = 'a' ∧ c = 't')

/-- Modelled from the spec: consume a three-letter weekday token.  The token
must be a weekday name, but is otherwise ignored (the parser must not require
it to match the date). -/
def skipWday3 : List Char → Option (List Char)
  | a :: b :: c :: t => if wday3Ok a b c then some t else none
  | _ => none

/-- Modelled from the spec: consume a full weekday token (`Monday` … `Sunday`)
of the legacy dash-date grammar; ignored apart from being well-formed. -/
def skipWdayFull (s : List Char) : Option (List Char) :=
  orO (dropTok ['M', 'o', 'n', 'd', 'a', 'y'] s)
    (orO (dropTok ['T', 'u', 'e', 's', 'd', 'a', 'y'] s)
      (orO (dropTok ['W', 'e', 'd', 'n', 'e', 's', 'd', 'a', 'y'] s)
        (orO (dropTok ['T', 'h', 'u', 'r', 's', 'd', 'a', 'y'] s)
          (orO (dropTok ['F', 'r', 'i', 'd', 'a', 'y'] s)
            (orO (dropTok ['S', 'a', 't', 'u', 'r', 'd', 'a', 'y'] s)
              (dropTok ['S', 'u', 'n', 'd', 'a', 'y'] s))))))

/-- Modelled from the spec: resolve a three-letter month name to 1–12. -/
def readMonNum : List Char → Option (Nat × List Char)
  | a :: b :: c :: t =>
    if a = 'J' ∧ b = 'a' ∧ c = 'n' then some (1, t)
    else if a = 'F' ∧ b = 'e' ∧ c = 'b' then some (2, t)
    else if a = 'M' ∧ b = 'a' ∧ c = 'r' then some (3, t)
    else if a = 'A' ∧ b = 'p' ∧ c = 'r' then some (4, t)
    else if a = 'M' ∧ b = 'a' ∧ c = 'y' then some (5, t)
    else if a = 'J' ∧ b = 'u' ∧ c = 'n' then some (6, t)
    else if a = 'J' ∧ b = 'u' ∧ c = 'l' then some (7, t)
    else if a = 'A' ∧ b = 'u' ∧ c = 'g' then some (8, t)
    else if a = 'S' ∧ b = 'e' ∧ c = 'p' then some (9, t)
    else if a = 'O' ∧ b = 'c' ∧ c = 't' then some (10, t)
    else if a = 'N' ∧ b = 'o' ∧ c = 'v' then some (11, t)
    else if a = 'D' ∧ b = 'e' ∧ c = 'c' then some (12, t)
    else none
  | _ => none

/-- Modelled from the spec: the asctime day field, space-padded to 2 chars
(a single space replaces a leading zero). -/
def readDay2 : List Char → Option (Nat × List Char)
  | a :: b :: t =>
    if a = ' ' then
      match readDigit b with
      | some d => some (d, t)
      | none => none
    else
      match readDigit a, readDigit b with
      | some hi, some lo => some (10 * hi + lo, t)
      | _, _ => none
  | _ => none

/-- Modelled from the spec: final field validation shared by the three
grammars — "validate each numeric field is within its legal range … require no
trailing garbage".  The leap-second value 60 in the seconds field is rejected
(the spec leaves the choice to the implementer and asks it to be documented:
this model rejects 60). -/
def mkDate (yr mon day hh mm ss : Nat) (rest : List Char) : Option HttpDate :=
  if rest = [] ∧ HttpDate.valid ⟨(yr : Int), mon, day, hh, mm, ss⟩ then
    some ⟨(yr : Int), mon, day, hh, mm, ss⟩
  else none

/-- Modelled from the spec: grammar 1, the preferred IMF-fixdate format
`"Www, dd Mmm yyyy hh:mm:ss GMT"`. -/
def parseImf (s : List Char) : Option HttpDate :=
  andThenO (skipWday3 s) fun s =>
  andThenO (expectChar ',' s) fun s =>
  andThenO (expectChar ' ' s) fun s =>
  andThenO (read2 s) fun p =>
  andThenO (expectChar ' ' p.2) fun s =>
  andThenO (readMonNum s) fun q =>
  andThenO (expectChar ' ' q.2) fun s =>
  andThenO (read4 s) fun y =>
  andThenO (expectChar ' ' y.2) fun s =>
  andThenO (read2 s) fun h =>
  andThenO (expectChar ':' h.2) fun s =>
  andThenO (read2 s) fun m =>
  andThenO (expectChar ':' m.2) fun s =>
  andThenO (read2 s) fun c =>
  andThenO (expectChar ' ' c.2) fun s =>
  andThenO (dropTok ['G', 'M', 'T'] s) fun s =>
  mkDate y.1 q.1 p.1 h.1 m.1 c.1 s

/-- Modelled from the spec: the two-digit-year windowing of the legacy
dash-date grammar — values 00–68 expand to 2000–2068 and values 69–99 to
1969–1999. -/
def expandYear2 (yy : Nat) : Nat :=
  if yy ≤ 68 then 2000 + yy else 1900 + yy

/-- Modelled from the spec: grammar 2, the legacy RFC-850-style format
`"Weekday, dd-Mmm-yy hh:mm:ss GMT"` with two-digit-year windowing. -/
def parseRfc850 (s : List Char) : Option HttpDate :=
  andThenO (skipWdayFull s) fun s =>
  andThenO (expectChar ',' s) fun s =>
  andThenO (expectChar ' ' s) fun s =>
  andThenO (read2 s) fun p =>
  andThenO (expectChar '-' p.2) fun s =>
  andThenO (readMonNum s) fun q =>
  andThenO (expectChar '-' q.2) fun s =>
  andThenO (read2 s) fun y =>
  andThenO (expectChar ' ' y.2) fun s =>
  andThenO (read2 s) fun h =>
  andThenO (expectChar ':' h.2) fun s =>
  andThenO (read2 s) fun m =>
  andThenO (expectChar ':' m.2) fun s =>
  andThenO (read2 s) fun c =>
  andThenO (expectChar ' ' c.2) fun s =>
  andThenO (dropTok ['G', 'M', 'T'] s) fun s =>
  mkDate (expandYear2 y.1) q.1 p.1 h.1 m.1 c.1 s

/-- Modelled from the spec: grammar 3, ANSI C `asctime` format
`"Www Mmm _d hh:mm:ss yyyy"` (day space-padded, no zone token). -/
def parseAsctime (s : List Char) : Option HttpDate :=
  andThenO (skipWday3 s) fun s =>
  andThenO (expectChar ' ' s) fun s =>
  andThenO (readMonNum s) fun q =>
  andThenO (expectChar ' ' q.2) fun s =>
  andThenO (readDay2 s) fun p =>
  andThenO (expectChar ' ' p.2) fun s =>
  andThenO (read2 s) fun h =>
  andThenO (expectChar ':' h.2) fun s =>
  andThenO (read2 s) fun m =>
  andThenO (expectChar ':' m.2) fun s =>
  andThenO (read2 s) fun c =>
  andThenO (expectChar ' ' c.2) fun s =>
  andThenO (read4 s) fun y =>
  mkDate y.1 q.1 p.1 h.1 m.1 c.1 y.2

/-- Modelled from the spec: the parser — sequential fallback through the three
grammars (try grammar 1, on failure 2, on failure 3). -/
def parseHttpDate (s : String) : Option HttpDate :=
  orO (parseImf s.data) (orO (parseRfc850 s.data) (parseAsctime s.data))

/-- The opaque error type of the source: `pub struct Error(())` — a single
kind, carrying no data distinguishing which grammar or field failed. -/
structure Error where

instance : DecidableEq Error := fun _ _ => isTrue rfl

/-- The `FromStr` impl of the source: parse, collapsing any failure to the
single opaque `Error`. -/
def from_str (s : String) : Except Error HttpDate :=
  match parseHttpDate s with
  | some d => Except.ok d
  | none => Except.error ⟨⟩

/-- Raw header value: a sequence of bytes. -/
abbrev HeaderValue := List Nat

/-- Modelled from the spec: may byte `b` appear in a header value?  (Visible
ASCII, space and horizontal tab — the check of the external header-value
collaborator.) -/
def headerByteOk (b : Nat) : Bool :=
  b == 9 || (32 ≤ b && b < 127)

/-- Modelled from the spec: the external collaborator turning raw header bytes
into text (`HeaderValue::to_str`); fails unless every byte is valid text. -/
def headerToStr (v : HeaderValue) : Option String :=
  if v.all headerByteOk then some (String.mk (v.map Char.ofNat)) else none

/-- Source `HttpDate::from_val` (lines 50–54):
`val.to_str().ok()?.parse().ok()` — both the text-decoding failure and the
parse failure collapse to `none`. -/
def HttpDate.from_val (v : HeaderValue) : Option HttpDate :=
  andThenO (headerToStr v) fun s => parseHttpDate s

/-- Modelled from the spec (the source calls `IterExt::just_one`, defined
outside this unit): yields the sole element of
the value sequence, and nothing when there are zero or several. -/
def just_one {α : Type} : List α → Option α
  | [x] => some x
  | _ => none

/-- Source `TryFromValues::try_from_values` (lines 60–70):
`values.just_one().and_then(HttpDate::from_val).ok_or_else(Error::invalid)`. -/
def try_from_values (vs : List HeaderValue) : Except Error HttpDate :=
  match andThenO (just_one vs) HttpDate.from_val with
  | some d => Except.ok d
  | none => Except.error ⟨⟩

/-- Source `From<&HttpDate> for HeaderValue` (lines 78–85): render,
then box the bytes as a header value; the construction checks the bytes are
valid header text. -/
def headerValueOf (x : HttpDate) : Option HeaderValue :=
  let bytes := x.toCanonicalChars.map Char.toNat
  if bytes.all headerByteOk then some bytes else none

/-- Modelled from the spec: year search of the days-to-calendar conversion.
Starting at year `y` with `r` days remaining, consume whole years while the
remaining day count covers them; `fuel` bounds the number of steps. -/
def yearLoop : Nat → Nat → Nat → Nat × Nat
  | 0, y, r => (y, r)
  | f + 1, y, r => if daysInYearN y ≤ r then yearLoop f (y + 1) (r - daysInYearN y) else (y, r)

/-- Modelled from the spec: month and day (1-based) from a 0-based day of
year, given whether the year is leap. -/
def monthDayOfDoy (r : Nat) (leap : Bool) : Nat × Nat :=
  let f : Nat := if leap then 1 else 0
  if r < 31 then (1, r + 1)
  else if r < 59 + f then (2, r - 31 + 1)
  else if r < 90 + f then (3, r - (59 + f) + 1)
  else if r < 120 + f then (4, r - (90 + f) + 1)
  else if r < 151 + f then (5, r - (120 + f) + 1)
  else if r < 181 + f then (6, r - (151 + f) + 1)
  else if r < 212 + f then (7, r - (181 + f) + 1)
  else if r < 243 + f then (8, r - (212 + f) + 1)
  else if r < 273 + f then (9, r - (243 + f) + 1)
  else if r < 304 + f then (10, r - (273 + f) + 1)
  else if r < 334 + f then (11, r - (304 + f) + 1)
  else (12, r - (334 + f) + 1)

/-- Modelled from the spec: calendar date of day `n` counted from 0000-01-01
(nonnegative side).  A whole 400-year cycle has exactly 146097 days, so after
splitting off complete cycles at most 400 year steps remain. -/
def civilOfDaysN (n : Nat) : Nat × Nat × Nat :=
  let era := n / 146097
  let p := yearLoop 400 (400 * era) (n % 146097)
  let md := monthDayOfDoy p.2 (isLeapN p.1)
  (p.1, md.1, md.2)

/-- Modelled from the spec: year search for days before 0000-01-01, walking
downward from year `y` with a positive deficit of `m` days. -/
def yearLoopNeg : Nat → Int → Nat → Int × Nat
  | 0, y, _ => (y - 1, 0)
  | f + 1, y, m =>
    let d := daysInYearZ (y - 1)
    if m ≤ d then (y - 1, d - m) else yearLoopNeg f (y - 1) (m - d)

/-- Modelled from the spec: calendar date of a (possibly negative) day count
from 0000-01-01. -/
def civilFromDays (n : Int) : Int × Nat × Nat :=
  if 0 ≤ n then
    let c := civilOfDaysN n.toNat
    ((c.1 : Int), c.2.1, c.2.2)
  else
    let m := (-n).toNat
    let p := yearLoopNeg (m / 365 + 1) 0 m
    let md := monthDayOfDoy p.2 (isLeap p.1)
    (p.1, md.1, md.2)

/-- Modelled from the spec: `From<SystemTime>` — "given a system-clock
timestamp, producing a TimestampValue is a pure, total, infallible conversion".
A clock reading is its count of seconds since the Unix epoch (the spec works at
one-second resolution); the conversion recovers the UTC calendar fields. -/
def HttpDate.fromSystemTime (s : Int) : HttpDate :=
  let sod := (s % 86400).toNat
  let c := civilFromDays (s / 86400 + 719528)
  ⟨c.1, c.2.1, c.2.2, sod / 3600, sod / 60 % 60, sod % 60⟩

theorem andThenO_some {α β : Type} (a : α) (f : α → Option β) :
    andThenO (some a) f = f a := rfl

theorem orO_some {α : Type} (a : α) (b : Option α) : orO (some a) b = some a := rfl

theorem readDigit_digitC : ∀ r : Nat, r < 10 → readDigit (digitC r) = some r := by
  decide

theorem expectChar_cons (c : Char) (t : List Char) : expectChar c (c :: t) = some t := by
  simp [expectChar]

theorem read2_pad2 (n : Nat) (h : n < 100) :
    ∀ t : List Char, read2 (pad2 n ++ t) = some (n, t) := by
  intro t
  have e1 : n / 10 % 10 = n / 10 := Nat.mod_eq_of_lt (by omega)
  have h1 : readDigit (digitC (n / 10 % 10)) = some (n / 10) := by
    rw [e1]
    exact readDigit_digitC _ (by omega)
  have h2 : readDigit (digitC (n % 10)) = some (n % 10) :=
    readDigit_digitC _ (by omega)
  simp only [pad2, List.cons_append, List.nil_append, read2, h1, h2]
  have : 10 * (n / 10) + n % 10 = n := by omega
  rw [this]

theorem read4_pad4 (n : Nat) (h : n < 10000) :
    ∀ t : List Char, read4 (pad4 n ++ t) = some (n, t) := by
  intro t
  have h1 : readDigit (digitC (n / 1000 % 10)) = some (n / 1000 % 10) :=
    readDigit_digitC _ (by omega)
  have h2 : readDigit (digitC (n / 100 % 10)) = some (n / 100 % 10) :=
    readDigit_digitC _ (by omega)
  have h3 : readDigit (digitC (n / 10 % 10)) = some (n / 10 % 10) :=
    readDigit_digitC _ (by omega)
  have h4 : readDigit (digitC (n % 10)) = some (n % 10) :=
    readDigit_digitC _ (by omega)
  simp only [pad4, List.cons_append, List.nil_append, read4, h1, h2, h3, h4]
  have : 1000 * (n / 1000 % 10) + 100 * (n / 100 % 10) + 10 * (n / 10 % 10) + n % 10 = n := by
    omega
  rw [this]

theorem readMonNum_monName (m : Nat) (hm1 : 1 ≤ m) (hm2 : m ≤ 12) :
    ∀ t : List Char, readMonNum (monName m ++ t) = some (m, t) := by
  intro t
  interval_cases m <;> rfl

theorem skipWday3_wdayName (w : Nat) (hw : w < 7) :
    ∀ t : List Char, skipWday3 (wdayName w ++ t) = some t := by
  intro t
  interval_cases w <;> rfl

theorem dropTok_gmt (t : List Char) : dropTok ['G', 'M', 'T'] ('G' :: 'M' :: 'T' :: t) = some t := rfl

theorem daysInMonthC_le (m : Nat) (l : Bool) : daysInMonthC m l ≤ 31 := by
  unfold daysInMonthC
  split <;> (try split) <;> omega

theorem weekdayOf_lt (x : HttpDate) : x.weekdayOf < 7 := by
  unfold HttpDate.weekdayOf
  have h1 := Int.emod_nonneg (x.daysSinceYear0 + 6) (by norm_num : (7 : Int) ≠ 0)
  have h2 := Int.emod_lt_of_pos (x.daysSinceYear0 + 6) (by norm_num : (0 : Int) < 7)
  omega

theorem parseImf_render (y : Int) (mo d hh mm ss : Nat)
    (h1 : 0 ≤ y) (h2 : y ≤ 9999) (h3 : 1 ≤ mo) (h4 : mo ≤ 12) (h5 : 1 ≤ d)
    (h6 : d ≤ daysInMonthZ mo y) (h7 : hh ≤ 23) (h8 : mm ≤ 59) (h9 : ss ≤ 59) :
    parseImf (HttpDate.toCanonicalChars ⟨y, mo, d, hh, mm, ss⟩) =
      some ⟨y, mo, d, hh, mm, ss⟩ := by
  have hd : d < 100 := by
    have := daysInMonthC_le mo (isLeap y)
    simp only [daysInMonthZ] at h6
    omega
  have hy : y.toNat < 10000 := by omega
  simp only [HttpDate.toCanonicalChars, parseImf,
    skipWday3_wdayName _ (weekdayOf_lt _), andThenO_some,
    expectChar_cons, read2_pad2 d hd, readMonNum_monName mo h3 h4,
    read4_pad4 y.toNat hy, read2_pad2 hh (by omega), read2_pad2 mm (by omega),
    read2_pad2 ss (by omega), dropTok_gmt, mkDate]
  rw [Int.toNat_of_nonneg h1]
  rw [if_pos ⟨trivial, h1, h2, h3, h4, h5, h6, h7, h8, h9⟩]

/-- The concrete instant 1994-11-07 08:48:37 UTC used by the spec's worked
examples and the repository's tests. -/
def nov07 : HttpDate := ⟨1994, 11, 7, 8, 48, 37⟩

/-- Claim C1: for every valid timestamp value x (every instant in the
4-digit-year domain the canonical grammar can represent), parsing the
canonical rendering of x succeeds and yields x itself. -/
theorem claim_C1 (x : HttpDate) (hv : x.valid) :
    parseHttpDate x.to_canonical_string = some x := by
  obtain ⟨y, mo, d, hh, mm, ss⟩ := x
  obtain ⟨h1, h2, h3, h4, h5, h6, h7, h8, h9⟩ := hv
  have h : parseImf (HttpDate.toCanonicalChars ⟨y, mo, d, hh, mm, ss⟩) =
      some ⟨y, mo, d, hh, mm, ss⟩ :=
    parseImf_render y mo d hh mm ss h1 h2 h3 h4 h5 h6 h7 h8 h9
  simp only [parseHttpDate, HttpDate.to_canonical_string, h, orO_some]

/-- Witness for C1 at the spec's concrete instant. -/
theorem claim_C1_witness : parseHttpDate nov07.to_canonical_string = some nov07 :=
  claim_C1 nov07 (by decide)

/-- Is `c` a printable ASCII character? -/
def charOk (c : Char) : Bool :=
  decide (32 ≤ c.toNat ∧ c.toNat < 127)

theorem wdayName_length (w : Nat) : (wdayName w).length = 3 := by
  unfold wdayName
  split <;> rfl

theorem monName_length (m : Nat) : (monName m).length = 3 := by
  unfold monName
  split <;> rfl

theorem wdayName_ok (w : Nat) : (wdayName w).all charOk = true := by
  unfold wdayName
  split <;> decide

theorem monName_ok (m : Nat) : (monName m).all charOk = true := by
  unfold monName
  split <;> decide

theorem digitC_ok (r : Nat) : charOk (digitC r) = true := by
  unfold digitC
  split <;> decide

theorem toCanonicalChars_ok (x : HttpDate) : x.toCanonicalChars.all charOk = true := by
  simp only [HttpDate.toCanonicalChars, pad2, pad4, List.all_append, List.all_cons,
    Bool.and_eq_true, wdayName_ok, monName_ok, digitC_ok]
  decide

theorem headerValueOf_isSome (x : HttpDate) : (headerValueOf x).isSome = true := by
  unfold headerValueOf
  have hall : (x.toCanonicalChars.map Char.toNat).all headerByteOk = true := by
    refine List.all_eq_true.mpr ?_
    intro b hb
    obtain ⟨c, hc, rfl⟩ := List.mem_map.mp hb
    have h := List.all_eq_true.mp (toCanonicalChars_ok x) c hc
    simp only [charOk, decide_eq_true_eq] at h
    simp only [headerByteOk, Bool.or_eq_true, Bool.and_eq_true, beq_iff_eq,
      decide_eq_true_eq]
    omega
  simp [hall]

/-- Claim C7: for every valid timestamp x, the canonical rendering is the
fixed 29-character printable-ASCII IMF-fixdate line, and boxing any rendered
date into a header value never fails (the construction's validity check always
passes). -/
theorem claim_C7 (x : HttpDate) (hv : x.valid) :
    x.to_canonical_string.length = 29 ∧
      x.to_canonical_string.data.all charOk = true ∧
      (headerValueOf x).isSome = true := by
  refine ⟨?_, toCanonicalChars_ok x, headerValueOf_isSome x⟩
  simp only [HttpDate.to_canonical_string, String.length, HttpDate.toCanonicalChars,
    pad2, pad4, List.length_append, List.length_cons, List.length_nil,
    wdayName_length, monName_length]

/-- Witness for C7 at the spec's concrete instant. -/
theorem claim_C7_witness :
    nov07.to_canonical_string.length = 29 ∧
      nov07.to_canonical_string.data.all charOk = true ∧
      (headerValueOf nov07).isSome = true :=
  claim_C7 nov07 (by decide)

/-- Claim C2: the same instant written in each of the three accepted grammars
parses successfully to the same value — the instant 1994-11-07 08:48:37 UTC
(Unix seconds 784198117, which is also what the clock conversion yields). -/
theorem claim_C2 :
    parseHttpDate "Sun, 07 Nov 1994 08:48:37 GMT" = some nov07 ∧
      parseHttpDate "Sunday, 07-Nov-94 08:48:37 GMT" = some nov07 ∧
      parseHttpDate "Sun Nov  7 08:48:37 1994" = some nov07 ∧
      nov07.toSystemTime = 784198117 ∧
      HttpDate.fromSystemTime 784198117 = nov07 := by
  refine ⟨rfl, rfl, rfl, rfl, ?_⟩
  set_option maxRecDepth 10000 in decide

/-- Claim C3: a weekday token disagreeing with the date is accepted (the
"Mon," spelling of 1994-11-07 parses to the same instant as the "Sun,"
spelling), and rendering recomputes the weekday from the date: the value
parsed from the legacy "Sunday, 07-Nov-94" text renders as
"Mon, 07 Nov 1994 08:48:37 GMT". -/
theorem claim_C3 :
    parseHttpDate "Mon, 07 Nov 1994 08:48:37 GMT" = some nov07 ∧
      parseHttpDate "Mon, 07 Nov 1994 08:48:37 GMT" =
        parseHttpDate "Sun, 07 Nov 1994 08:48:37 GMT" ∧
      (parseHttpDate "Sunday, 07-Nov-94 08:48:37 GMT").map HttpDate.to_canonical_string =
        some "Mon, 07 Nov 1994 08:48:37 GMT" :=
  ⟨rfl, rfl, rfl⟩

/-- Claim C8: input matching none of the three grammars fails with the single
opaque error kind, and the error type carries no data at all (any two errors
are equal). -/
theorem claim_C8 :
    from_str "this-is-no-date" = Except.error ⟨⟩ ∧ ∀ e1 e2 : Error, e1 = e2 :=
  ⟨rfl, fun e1 e2 => by cases e1; cases e2; rfl⟩

/-- Claim C4: in the legacy dash-date grammar the two-digit year is expanded
with the windowing rule whose pivot lies between 68 and 69: 00–68 become
2000–2068 and 69–99 become 1969–1999, for every two-digit value. -/
theorem claim_C4 (yy : Nat) (h : yy < 100) :
    parseHttpDate (String.mk ("Sunday, 07-Nov-".data ++ pad2 yy ++ " 08:48:37 GMT".data)) =
      some ⟨((if yy ≤ 68 then 2000 + yy else 1900 + yy : Nat) : Int), 11, 7, 8, 48, 37⟩ := by
  revert yy
  set_option maxRecDepth 10000 in decide

/-- Witness for C4: the spec's worked example "94" expands to 1994. -/
theorem claim_C4_witness :
    parseHttpDate (String.mk ("Sunday, 07-Nov-".data ++ pad2 94 ++ " 08:48:37 GMT".data)) =
      some ⟨((if (94 : Nat) ≤ 68 then 2000 + 94 else 1900 + 94 : Nat) : Int), 11, 7, 8, 48, 37⟩ :=
  claim_C4 94 (by decide)

/-- Claim C5: equality holds exactly when comparison yields `Equal` (both are
the numeric order of seconds-since-epoch), equal values hash identically, and
the hash depends only on the absolute-time value, so equal instants from
different textual formats hash the same. -/
theorem claim_C5 (x y : HttpDate) :
    (x.eq y = true ↔ x.cmp y = Ordering.eq) ∧
      (x.eq y = true → x.hash = y.hash) ∧
      (x.toSystemTime = y.toSystemTime → x.hash = y.hash) := by
  unfold HttpDate.eq HttpDate.cmp HttpDate.hash
  refine ⟨?_, ?_, fun h => h⟩
  · by_cases hlt : x.toSystemTime < y.toSystemTime
    · rw [if_pos hlt]
      simp only [beq_iff_eq]
      constructor
      · intro h
        omega
      · intro h
        cases h
    · rw [if_neg hlt]
      by_cases heq : x.toSystemTime = y.toSystemTime
      · rw [if_pos heq]
        simp [heq]
      · rw [if_neg heq]
        simp only [beq_iff_eq]
        constructor
        · intro h
          exact absurd h heq
        · intro h
          cases h
  · intro h
    simp only [beq_iff_eq] at h
    exact h

/-- Witness for C5 at the spec's concrete instant (both hypothesised parts,
instantiated and discharged at `nov07`). -/
theorem claim_C5_witness :
    (nov07.eq nov07 = true ↔ nov07.cmp nov07 = Ordering.eq) ∧ nov07.hash = nov07.hash :=
  ⟨(claim_C5 nov07 nov07).1, (claim_C5 nov07 nov07).2.1 (by decide)⟩

/-- Claim C9: extraction from an ordered collection of raw header values
enforces "exactly one value": zero or several values yield the invalid-header
error, and only a singleton collection hands its value to the parser (the
outcome is then exactly the parse attempt on that value). -/
theorem claim_C9 (vs : List HeaderValue) :
    (vs.length ≠ 1 → try_from_values vs = Except.error ⟨⟩) ∧
      (∀ v, vs = [v] → try_from_values vs =
        match HttpDate.from_val v with
        | some d => Except.ok d
        | none => Except.error ⟨⟩) := by
  constructor
  · intro h
    match vs with
    | [] => rfl
    | [v] => simp at h
    | a :: b :: t => rfl
  · intro v hv
    subst hv
    rfl

/-- Witness for C9: the empty collection is rejected. -/
theorem claim_C9_witness : try_from_values ([] : List HeaderValue) = Except.error ⟨⟩ :=
  (claim_C9 []).1 (by decide)

/-- Claim C10: `from_val` is total and collapses every failure to `none` —
bytes that are not valid header text yield `none`, and decodable text that
matches none of the three grammars also yields `none`. -/
theorem claim_C10 (v : HeaderValue) :
    (headerToStr v = none → HttpDate.from_val v = none) ∧
      (∀ s, headerToStr v = some s → parseHttpDate s = none → HttpDate.from_val v = none) := by
  constructor
  · intro h
    unfold HttpDate.from_val
    rw [h]
    rfl
  · intro s h1 h2
    unfold HttpDate.from_val
    rw [h1]
    exact h2

/-- Witness for C10: a header value containing the byte 0 is not text and
maps to `none`. -/
theorem claim_C10_witness : HttpDate.from_val [0] = none :=
  (claim_C10 [0]).1 (by decide)

theorem yearStartN_400 (e : Nat) : yearStartN (400 * e) = 146097 * e := by
  unfold yearStartN
  omega

theorem yearStartN_ge_10000 (y : Nat) (h : 10000 ≤ y) : 3652425 ≤ yearStartN y := by
  unfold yearStartN
  omega

theorem yearLoop_spec (f : Nat) : ∀ y r : Nat,
    yearStartN y + r < yearStartN (y + f) →
      yearStartN (yearLoop f y r).1 + (yearLoop f y r).2 = yearStartN y + r ∧
        (yearLoop f y r).2 < daysInYearN (yearLoop f y r).1 := by
  induction f with
  | zero =>
    intro y r h
    simp only [Nat.add_zero] at h
    omega
  | succ f ih =>
    intro y r h
    rw [yearLoop]
    by_cases hc : daysInYearN y ≤ r
    · rw [if_pos hc]
      have hstep : yearStartN (y + 1) = yearStartN y + daysInYearN y := yearStartN_step y
      have hyf : y + 1 + f = y + (f + 1) := by omega
      have h' : yearStartN (y + 1) + (r - daysInYearN y) < yearStartN (y + 1 + f) := by
        rw [hyf]
        omega
      have hr := ih (y + 1) (r - daysInYearN y) h'
      omega
    · rw [if_neg hc]
      refine ⟨rfl, ?_⟩
      show r < daysInYearN y
      omega

set_option maxRecDepth 10000 in
theorem monthDayOfDoy_valid : ∀ l : Bool, ∀ r : Nat, r < 366 →
    (r < (if l then 366 else 365) →
      1 ≤ (monthDayOfDoy r l).1 ∧ (monthDayOfDoy r l).1 ≤ 12 ∧
        1 ≤ (monthDayOfDoy r l).2 ∧
        (monthDayOfDoy r l).2 ≤ daysInMonthC (monthDayOfDoy r l).1 l) := by
  decide

theorem civilOfDaysN_valid (n : Nat) (h : n ≤ 3652424) :
    (civilOfDaysN n).1 ≤ 9999 ∧
      1 ≤ (civilOfDaysN n).2.1 ∧ (civilOfDaysN n).2.1 ≤ 12 ∧
      1 ≤ (civilOfDaysN n).2.2 ∧
      (civilOfDaysN n).2.2 ≤ daysInMonthC (civilOfDaysN n).2.1 (isLeapN (civilOfDaysN n).1) := by
  have hcond : yearStartN (400 * (n / 146097)) + n % 146097 <
      yearStartN (400 * (n / 146097) + 400) := by
    have e1 : 400 * (n / 146097) + 400 = 400 * (n / 146097 + 1) := by ring
    rw [yearStartN_400, e1, yearStartN_400]
    omega
  have hsp := yearLoop_spec 400 (400 * (n / 146097)) (n % 146097) hcond
  obtain ⟨hE, hB⟩ := hsp
  rw [yearStartN_400] at hE
  have hn : yearStartN (yearLoop 400 (400 * (n / 146097)) (n % 146097)).1 +
      (yearLoop 400 (400 * (n / 146097)) (n % 146097)).2 = n := by omega
  have hy : (yearLoop 400 (400 * (n / 146097)) (n % 146097)).1 ≤ 9999 := by
    by_contra hge
    have := yearStartN_ge_10000 (yearLoop 400 (400 * (n / 146097)) (n % 146097)).1 (by omega)
    omega
  have h366 : (yearLoop 400 (400 * (n / 146097)) (n % 146097)).2 < 366 := by
    unfold daysInYearN at hB
    split at hB <;> omega
  have hBif : (yearLoop 400 (400 * (n / 146097)) (n % 146097)).2 <
      (if isLeapN (yearLoop 400 (400 * (n / 146097)) (n % 146097)).1 then 366 else 365) := by
    unfold daysInYearN at hB
    exact hB
  have hmd := monthDayOfDoy_valid (isLeapN (yearLoop 400 (400 * (n / 146097)) (n % 146097)).1)
    (yearLoop 400 (400 * (n / 146097)) (n % 146097)).2 h366 hBif
  unfold civilOfDaysN
  exact ⟨hy, hmd.1, hmd.2.1, hmd.2.2.1, hmd.2.2.2⟩

/-- Counterexample to C6 as stated: the clock conversion is total, but a
reading arbitrarily far in the future does not produce a valid timestamp —
the first second of year 10000 falls outside the 4-digit-year domain that the
canonical 29-character grammar (and hence validity) requires. -/
theorem claim_C6_counterexample : ¬ (HttpDate.fromSystemTime 253402300800).valid := by
  decide

/-- Claim C6 (amended): the clock conversion is pure and total, and for every
representable clock reading whose UTC instant lies within years 0000–9999 —
including all times before the Unix epoch back to year 0 — it produces a valid
timestamp value. -/
theorem claim_C6 (s : Int) (h1 : -62167219200 ≤ s) (h2 : s < 253402300800) :
    (HttpDate.fromSystemTime s).valid := by
  unfold HttpDate.fromSystemTime civilFromDays
  have hn : 0 ≤ s / 86400 + 719528 := by omega
  have hmod1 : 0 ≤ s % 86400 := Int.emod_nonneg s (by norm_num)
  have hmod2 : s % 86400 < 86400 := Int.emod_lt_of_pos s (by norm_num)
  have hle : (s / 86400 + 719528).toNat ≤ 3652424 := by omega
  have hc := civilOfDaysN_valid (s / 86400 + 719528).toNat hle
  rw [if_pos hn]
  unfold HttpDate.valid
  refine ⟨?_, ?_, ?_, ?_, ?_, ?_, ?_, ?_, ?_⟩
  · show (0 : Int) ≤ ((civilOfDaysN (s / 86400 + 719528).toNat).1 : Int)
    exact Int.natCast_nonneg _
  · show ((civilOfDaysN (s / 86400 + 719528).toNat).1 : Int) ≤ 9999
    exact_mod_cast hc.1
  · exact hc.2.1
  · exact hc.2.2.1
  · exact hc.2.2.2.1
  · show (civilOfDaysN (s / 86400 + 719528).toNat).2.2 ≤
      daysInMonthZ (civilOfDaysN (s / 86400 + 719528).toNat).2.1
        ((civilOfDaysN (s / 86400 + 719528).toNat).1 : Int)
    unfold daysInMonthZ
    rw [isLeap_natCast]
    exact hc.2.2.2.2
  · show (s % 86400).toNat / 3600 ≤ 23
    omega
  · show (s % 86400).toNat / 60 % 60 ≤ 59
    omega
  · show (s % 86400).toNat % 60 ≤ 59
    omega

/-- Witness for the amended C6 at the spec's concrete instant. -/
theorem claim_C6_witness : (HttpDate.fromSystemTime 784198117).valid :=
  claim_C6 784198117 (by decide) (by decide)
